import Mathlib

/-!
Verification of the goread feed-article cache and UI model.

The cache subsystem (CacheStore, FilterEngine, PersistenceLayer) is not among
the source files; only its test suite is. Following the specification, those
components are modelled here from the spec's words; definitions carrying a
`Modelled from the spec:` doc comment are in that category. The UI model
(`Update`, `New`) and the web backend (`FetchFeeds`, `FetchArticles`) are
translated directly from the Go sources.
-/

namespace Goread

/-- Modelled from the spec: an Article is an immutable record of
`title`, `description` and `content` (spec §3). -/
structure Article where
  title : String
  description : String
  content : String
deriving DecidableEq, Repr

/-- Modelled from the spec: a CacheEntry pairs the ordered article sequence
with its expiry timestamp (spec §3); timestamps are naturals. -/
structure CacheEntry where
  articles : List Article
  expire : Nat
deriving DecidableEq, Repr

/-- Modelled from the spec: a Feed supplies the cache key `url` and the two
filter word sets (spec §3). -/
structure Feed where
  url : String
  whitelistWords : List String
  blacklistWords : List String

/-- Modelled from the spec: the cache `content` mapping from feed URL to
entry, keys unique, represented as an association list. -/
abbrev Content := List (String × CacheEntry)

/-- Lookup of a key in the content mapping. -/
def lookupContent (c : Content) (k : String) : Option CacheEntry :=
  match c with
  | [] => none
  | (k2, e) :: rest => if k2 = k then some e else lookupContent rest k

/-- Insert or replace the entry stored under a key. -/
def insertContent (c : Content) (k : String) (e : CacheEntry) : Content :=
  match c with
  | [] => [(k, e)]
  | (k2, e2) :: rest =>
    if k2 = k then (k, e) :: rest else (k2, e2) :: insertContent rest k e

/-! ### FilterEngine -/

/-- An executable test that one character list is a prefix of another. -/
def prefixCheck : List Char → List Char → Bool
  | [], _ => true
  | _ :: _, [] => false
  | a :: as, b :: bs => a = b && prefixCheck as bs

/-- An executable test that one character list occurs inside another. -/
def substrCheck : List Char → List Char → Bool
  | needle, [] => needle.isEmpty
  | needle, _hd :: t => prefixCheck needle (_hd :: t) || substrCheck needle t

theorem prefixCheck_iff : ∀ n h : List Char, prefixCheck n h = true ↔ n <+: h
  | [], h => by simp [prefixCheck]
  | _ :: _, [] => by simp [prefixCheck]
  | a :: as, b :: bs => by
    rw [prefixCheck, List.cons_prefix_cons, Bool.and_eq_true, decide_eq_true_iff,
      prefixCheck_iff as bs]

theorem substrCheck_iff : ∀ n h : List Char, substrCheck n h = true ↔ n <:+: h
  | n, [] => by simp [substrCheck, List.infix_nil, List.isEmpty_iff]
  | n, b :: bs => by
    rw [substrCheck, Bool.or_eq_true, List.infix_cons_iff, prefixCheck_iff,
      substrCheck_iff n bs]

/-- The lower-cased character sequence of a string. -/
def lowerData (s : String) : List Char := s.data.map Char.toLower

/-- The searchable text of an article: the concatenation of title,
description and content (spec §4.2). -/
def articleText (a : Article) : String :=
  a.title ++ a.description ++ a.content

/-- Modelled from the spec: a word is present in an article if it occurs as a
case-insensitive substring of the concatenation of title, description and
content (spec §4.2). -/
def present (w : String) (a : Article) : Prop :=
  lowerData w <:+: lowerData (articleText a)

instance (w : String) (a : Article) : Decidable (present w a) :=
  decidable_of_iff _ (substrCheck_iff (lowerData w) (lowerData (articleText a)))

/-- The filter predicate: the whitelist test (vacuous when the whitelist is
empty) conjoined with failing every blacklist word (spec §4.2). -/
def keepArticle (wl bl : List String) (a : Article) : Bool :=
  (wl.isEmpty || wl.any fun w => decide (present w a)) &&
    !(bl.any fun w => decide (present w a))

/-- Modelled from the spec: the pure FilterEngine over an article sequence
and the whitelist/blacklist word sets (spec §4.2). -/
def Filter (articles : List Article) (wl bl : List String) : List Article :=
  articles.filter (keepArticle wl bl)

/-! ### CacheStore -/

/-- Modelled from the spec: the fixed staleness-policy constant, on the order
of hours (spec §4.1); 24 hours in seconds. -/
def DefaultCacheDuration : Nat := 24 * 60 * 60

/-- Modelled from the spec: a fetch failure carries a human-readable
description and the underlying cause (spec §6, §7). -/
structure FetchFailure where
  description : String
  cause : String
deriving DecidableEq, Repr

/-- The observable outcome of one `GetArticles` call: the returned value, the
content mapping afterwards, and how many fetcher invocations were made. -/
structure GetResult where
  result : Except FetchFailure (List Article)
  content : Content
  fetchCount : Nat
deriving Repr

/-- Step 5 of the spec's algorithm: apply the FilterEngine to the raw result
exactly when filters were requested and at least one word set is non-empty. -/
def deliver (feed : Feed) (applyFilters : Bool) (raw : List Article) : List Article :=
  if applyFilters && (!feed.whitelistWords.isEmpty || !feed.blacklistWords.isEmpty) then
    Filter raw feed.whitelistWords feed.blacklistWords
  else raw

/-- Modelled from the spec: `GetArticles` (spec §4.1). A valid hit (entry
exists and expires strictly after `now`) serves the stored articles without
fetching; on miss or expiry the fetcher is invoked once, a successful fetch
installs a whole new entry expiring at `now + DefaultCacheDuration`, and a
failed fetch propagates the failure leaving the mapping untouched. -/
def GetArticles (fetch : String → Except String (List Article)) (now : Nat)
    (c : Content) (feed : Feed) (applyFilters : Bool) : GetResult :=
  match lookupContent c feed.url with
  | some entry =>
    if now < entry.expire then
      ⟨.ok (deliver feed applyFilters entry.articles), c, 0⟩
    else
      match fetch feed.url with
      | .error cause => ⟨.error ⟨"Failed to fetch the article", cause⟩, c, 1⟩
      | .ok arts =>
        ⟨.ok (deliver feed applyFilters arts),
          insertContent c feed.url ⟨arts, now + DefaultCacheDuration⟩, 1⟩
  | none =>
    match fetch feed.url with
    | .error cause => ⟨.error ⟨"Failed to fetch the article", cause⟩, c, 1⟩
    | .ok arts =>
      ⟨.ok (deliver feed applyFilters arts),
        insertContent c feed.url ⟨arts, now + DefaultCacheDuration⟩, 1⟩

/-- Looking a key up after an insert finds the inserted entry at that key and
is unchanged elsewhere. -/
theorem lookupContent_insertContent (c : Content) (k : String) (e : CacheEntry)
    (k2 : String) :
    lookupContent (insertContent c k e) k2 =
      if k = k2 then some e else lookupContent c k2 := by
  induction c with
  | nil => simp [insertContent, lookupContent]
  | cons hd tl ih =>
    obtain ⟨k3, e3⟩ := hd
    by_cases h3 : k3 = k
    · subst h3
      simp only [insertContent, if_pos rfl, lookupContent]
      by_cases h2 : k3 = k2 <;> simp [h2]
    · simp only [insertContent, if_neg h3, lookupContent, ih]
      by_cases h2 : k3 = k2
      · subst h2
        simp [if_neg (Ne.symm h3)]
      · simp [h2]

theorem defaultCacheDuration_pos : 0 < DefaultCacheDuration := by decide

/-- C1: a feed with a non-expired entry is served from the stored entry, with
zero fetcher invocations and the content mapping unchanged. -/
theorem getArticles_valid_hit (fetch : String → Except String (List Article))
    (now : Nat) (c : Content) (feed : Feed) (entry : CacheEntry)
    (hl : lookupContent c feed.url = some entry) (hv : now < entry.expire) :
    GetArticles fetch now c feed false = ⟨.ok entry.articles, c, 0⟩ := by
  simp [GetArticles, hl, hv, deliver]
/-- On a miss or an expired entry, `GetArticles` reduces to the outcome of
the single fetcher invocation. -/
theorem getArticles_stale (fetch : String → Except String (List Article))
    (now : Nat) (c : Content) (feed : Feed) (b : Bool)
    (hmiss : ∀ entry, lookupContent c feed.url = some entry → entry.expire ≤ now) :
    GetArticles fetch now c feed b =
      match fetch feed.url with
      | .error cause => ⟨.error ⟨"Failed to fetch the article", cause⟩, c, 1⟩
      | .ok arts =>
        ⟨.ok (deliver feed b arts),
          insertContent c feed.url ⟨arts, now + DefaultCacheDuration⟩, 1⟩ := by
  cases hl : lookupContent c feed.url with
  | none => simp [GetArticles, hl]
  | some e =>
    have he : ¬ now < e.expire := by
      have := hmiss e hl
      omega
    simp [GetArticles, hl, he]

/-- C2: on a miss or an expired entry, a successful refresh performs exactly
one fetch and installs a whole new entry expiring at
`now + DefaultCacheDuration`, replacing any previous entry; the previous
entry's expiry was strictly smaller. -/
theorem getArticles_refresh_installs (fetch : String → Except String (List Article))
    (now : Nat) (c : Content) (feed : Feed) (b : Bool) (arts : List Article)
    (hmiss : ∀ entry, lookupContent c feed.url = some entry → entry.expire ≤ now)
    (hf : fetch feed.url = .ok arts) :
    (GetArticles fetch now c feed b).fetchCount = 1 ∧
    (GetArticles fetch now c feed b).content =
      insertContent c feed.url ⟨arts, now + DefaultCacheDuration⟩ ∧
    lookupContent (GetArticles fetch now c feed b).content feed.url =
      some ⟨arts, now + DefaultCacheDuration⟩ ∧
    ∀ entry, lookupContent c feed.url = some entry →
      entry.expire < now + DefaultCacheDuration := by
  rw [getArticles_stale fetch now c feed b hmiss, hf]
  refine ⟨rfl, rfl, ?_, ?_⟩
  · simp [lookupContent_insertContent]
  · intro e he
    have h1 := hmiss e he
    have h2 := defaultCacheDuration_pos
    omega

/-- C3: on a miss or an expired entry, a fetcher failure is propagated with a
description and the underlying cause, and the content mapping is exactly the
one from before the call. -/
theorem getArticles_fetch_failure (fetch : String → Except String (List Article))
    (now : Nat) (c : Content) (feed : Feed) (b : Bool) (cause : String)
    (hmiss : ∀ entry, lookupContent c feed.url = some entry → entry.expire ≤ now)
    (hf : fetch feed.url = .error cause) :
    GetArticles fetch now c feed b =
      ⟨.error ⟨"Failed to fetch the article", cause⟩, c, 1⟩ := by
  rw [getArticles_stale fetch now c feed b hmiss, hf]

/-- One filtered `GetArticles` call, observed on the content mapping. -/
def stepTrue (fetch : String → Except String (List Article)) (now : Nat)
    (feed : Feed) (c : Content) : Content :=
  (GetArticles fetch now c feed true).content

/-- Iterated filtered `GetArticles` calls, observed on the content mapping. -/
def iterGet (fetch : String → Except String (List Article)) (now : Nat)
    (feed : Feed) : Nat → Content → Content
  | 0, c => c
  | n + 1, c => iterGet fetch now feed n (stepTrue fetch now feed c)

/-- The content mapping after `GetArticles` does not depend on the
`applyFilters` flag. -/
theorem getArticles_content_indep (fetch : String → Except String (List Article))
    (now : Nat) (c : Content) (feed : Feed) (b b2 : Bool) :
    (GetArticles fetch now c feed b).content =
      (GetArticles fetch now c feed b2).content := by
  cases hl : lookupContent c feed.url with
  | none => cases hf : fetch feed.url <;> simp [GetArticles, hl, hf]
  | some e =>
    by_cases h : now < e.expire
    · simp [GetArticles, hl, h]
    · cases hf : fetch feed.url <;> simp [GetArticles, hl, h, hf]

theorem stepTrue_fix (fetch : String → Except String (List Article))
    (now : Nat) (feed : Feed) (c : Content) :
    stepTrue fetch now feed (stepTrue fetch now feed c) =
      stepTrue fetch now feed c := by
  cases hl : lookupContent c feed.url with
  | some e =>
    by_cases h : now < e.expire
    · have h1 : stepTrue fetch now feed c = c := by
        simp [stepTrue, GetArticles, hl, h]
      simp only [h1]
    · have hmiss : ∀ entry, lookupContent c feed.url = some entry →
          entry.expire ≤ now := by
        intro e2 he2
        rw [hl] at he2
        cases he2
        omega
      cases hf : fetch feed.url with
      | error cause =>
        have h1 : stepTrue fetch now feed c = c := by
          simp [stepTrue, getArticles_stale fetch now c feed true hmiss, hf]
        simp only [h1]
      | ok arts =>
        have h1 : stepTrue fetch now feed c =
            insertContent c feed.url ⟨arts, now + DefaultCacheDuration⟩ := by
          simp [stepTrue, getArticles_stale fetch now c feed true hmiss, hf]
        have h2 : lookupContent (insertContent c feed.url
            ⟨arts, now + DefaultCacheDuration⟩) feed.url =
            some ⟨arts, now + DefaultCacheDuration⟩ := by
          simp [lookupContent_insertContent]
        have h3 : now < now + DefaultCacheDuration := by
          have := defaultCacheDuration_pos
          omega
        rw [h1]
        simp [stepTrue, GetArticles, h2, h3]
  | none =>
    have hmiss : ∀ entry, lookupContent c feed.url = some entry →
        entry.expire ≤ now := by
      intro e2 he2
      rw [hl] at he2
      cases he2
    cases hf : fetch feed.url with
    | error cause =>
      have h1 : stepTrue fetch now feed c = c := by
        simp [stepTrue, getArticles_stale fetch now c feed true hmiss, hf]
      simp only [h1]
    | ok arts =>
      have h1 : stepTrue fetch now feed c =
          insertContent c feed.url ⟨arts, now + DefaultCacheDuration⟩ := by
        simp [stepTrue, getArticles_stale fetch now c feed true hmiss, hf]
      have h2 : lookupContent (insertContent c feed.url
          ⟨arts, now + DefaultCacheDuration⟩) feed.url =
          some ⟨arts, now + DefaultCacheDuration⟩ := by
        simp [lookupContent_insertContent]
      have h3 : now < now + DefaultCacheDuration := by
        have := defaultCacheDuration_pos
        omega
      rw [h1]
      simp [stepTrue, GetArticles, h2, h3]

theorem iterGet_succ_eq (fetch : String → Except String (List Article))
    (now : Nat) (feed : Feed) :
    ∀ (n : Nat) (c : Content),
      iterGet fetch now feed (n + 1) c = stepTrue fetch now feed c := by
  intro n
  induction n with
  | zero => intro c; rfl
  | succ m ih =>
    intro c
    show iterGet fetch now feed (m + 1) (stepTrue fetch now feed c) = _
    rw [ih (stepTrue fetch now feed c), stepTrue_fix]

/-- The entry stored under the feed's URL after a filtered call is either the
pre-existing entry or holds exactly the raw fetched articles. -/
theorem lookup_stepTrue (fetch : String → Except String (List Article))
    (now : Nat) (feed : Feed) (c : Content) (e : CacheEntry)
    (h : lookupContent (stepTrue fetch now feed c) feed.url = some e) :
    lookupContent c feed.url = some e ∨ fetch feed.url = .ok e.articles := by
  cases hl : lookupContent c feed.url with
  | some e2 =>
    by_cases hv : now < e2.expire
    · left
      have h1 : stepTrue fetch now feed c = c := by
        simp [stepTrue, GetArticles, hl, hv]
      rw [h1, hl] at h
      exact h
    · have hmiss : ∀ entry, lookupContent c feed.url = some entry →
          entry.expire ≤ now := by
        intro e3 he3
        rw [hl] at he3
        cases he3
        omega
      cases hf : fetch feed.url with
      | error cause =>
        left
        have h1 : stepTrue fetch now feed c = c := by
          simp [stepTrue, getArticles_stale fetch now c feed true hmiss, hf]
        rw [h1, hl] at h
        exact h
      | ok arts =>
        right
        have h1 : stepTrue fetch now feed c =
            insertContent c feed.url ⟨arts, now + DefaultCacheDuration⟩ := by
          simp [stepTrue, getArticles_stale fetch now c feed true hmiss, hf]
        rw [h1, lookupContent_insertContent, if_pos rfl] at h
        cases h
        rfl
  | none =>
    have hmiss : ∀ entry, lookupContent c feed.url = some entry →
        entry.expire ≤ now := by
      intro e3 he3
      rw [hl] at he3
      cases he3
    cases hf : fetch feed.url with
    | error cause =>
      have h1 : stepTrue fetch now feed c = c := by
        simp [stepTrue, getArticles_stale fetch now c feed true hmiss, hf]
      rw [h1, hl] at h
      simp at h
    | ok arts =>
      right
      have h1 : stepTrue fetch now feed c =
          insertContent c feed.url ⟨arts, now + DefaultCacheDuration⟩ := by
        simp [stepTrue, getArticles_stale fetch now c feed true hmiss, hf]
      rw [h1, lookupContent_insertContent, if_pos rfl] at h
      cases h
      rfl

/-- C5: filtering never mutates the cache: a filtered call leaves the same
content mapping as an unfiltered one, repeating the filtered call any number
of times changes nothing after the first, and the entry stored under the
feed's URL holds either the pre-existing articles or the raw (unfiltered)
fetched articles. -/
theorem getArticles_filter_no_mutation (fetch : String → Except String (List Article))
    (now : Nat) (feed : Feed) (c : Content) (n : Nat) :
    (GetArticles fetch now c feed true).content =
      (GetArticles fetch now c feed false).content ∧
    iterGet fetch now feed (n + 1) c = iterGet fetch now feed 1 c ∧
    ∀ e, lookupContent (iterGet fetch now feed 1 c) feed.url = some e →
      lookupContent c feed.url = some e ∨ fetch feed.url = .ok e.articles := by
  refine ⟨getArticles_content_indep fetch now c feed true false, ?_, ?_⟩
  · rw [iterGet_succ_eq]
    rfl
  · intro e he
    exact lookup_stepTrue fetch now feed c e he
/-- The filter predicate holds exactly when the whitelist test (vacuous for
an empty whitelist) passes and no blacklist word is present. -/
theorem keepArticle_iff (wl bl : List String) (a : Article) :
    keepArticle wl bl a = true ↔
      (wl = [] ∨ ∃ w ∈ wl, present w a) ∧ ∀ w ∈ bl, ¬ present w a := by
  simp [keepArticle, List.isEmpty_iff, List.any_eq_true]

/-- C4: `Filter` keeps exactly the articles passing the whitelist test (when
the whitelist is non-empty) and matching no blacklist word, preserving the
input order. -/
theorem filter_keeps_exactly (arts : List Article) (wl bl : List String) :
    (Filter arts wl bl).Sublist arts ∧
    ∀ a, a ∈ Filter arts wl bl ↔
      a ∈ arts ∧ (wl ≠ [] → ∃ w ∈ wl, present w a) ∧ ∀ w ∈ bl, ¬ present w a := by
  constructor
  · exact List.filter_sublist arts
  · intro a
    rw [Filter, List.mem_filter, keepArticle_iff]
    constructor
    · rintro ⟨ha, hw, hb⟩
      exact ⟨ha, fun hne => hw.resolve_left hne, hb⟩
    · rintro ⟨ha, hw, hb⟩
      refine ⟨ha, ?_, hb⟩
      by_cases hwl : wl = []
      · exact Or.inl hwl
      · exact Or.inr (hw hwl)

/-! ### PersistenceLayer -/

/-- Modelled from the spec: the on-disk encoding is an implementation choice
(spec §6); the persisted file is modelled as a structured value. -/
inductive FileData where
  | str : String → FileData
  | num : Nat → FileData
  | arr : List FileData → FileData

/-- Serialization of one article. -/
def encodeArticle (a : Article) : FileData :=
  .arr [.str a.title, .str a.description, .str a.content]

/-- Deserialization of one article. -/
def decodeArticle : FileData → Option Article
  | .arr [.str t, .str d, .str c] => some ⟨t, d, c⟩
  | _ => none

/-- Serialization of an article sequence. -/
def encodeArticles (l : List Article) : List FileData :=
  l.map encodeArticle

/-- Deserialization of an article sequence. -/
def decodeArticles : List FileData → Option (List Article)
  | [] => some []
  | d :: ds =>
    match decodeArticle d, decodeArticles ds with
    | some a, some rest => some (a :: rest)
    | _, _ => none

/-- Serialization of a cache entry (articles and expiry together). -/
def encodeEntry (e : CacheEntry) : FileData :=
  .arr [.num e.expire, .arr (encodeArticles e.articles)]

/-- Deserialization of a cache entry. -/
def decodeEntry : FileData → Option CacheEntry
  | .arr [.num n, .arr ds] => (decodeArticles ds).map fun arts => ⟨arts, n⟩
  | _ => none

/-- Serialization of the whole content mapping. -/
def encodeContent (c : Content) : FileData :=
  .arr (c.map fun kv => .arr [.str kv.1, encodeEntry kv.2])

/-- Deserialization of the key/entry pair list. -/
def decodePairs : List FileData → Option Content
  | [] => some []
  | .arr [.str k, d] :: ds =>
    match decodeEntry d, decodePairs ds with
    | some e, some rest => some ((k, e) :: rest)
    | _, _ => none
  | _ => none

/-- Deserialization of the whole content mapping. -/
def decodeContent : FileData → Option Content
  | .arr ds => decodePairs ds
  | _ => none

theorem decodeArticle_encodeArticle (a : Article) :
    decodeArticle (encodeArticle a) = some a := by
  obtain ⟨t, d, c⟩ := a
  rfl

theorem decodeArticles_encodeArticles (l : List Article) :
    decodeArticles (encodeArticles l) = some l := by
  induction l with
  | nil => rfl
  | cons a rest ih =>
    show decodeArticles (encodeArticle a :: encodeArticles rest) = _
    rw [decodeArticles, decodeArticle_encodeArticle, ih]

theorem decodeEntry_encodeEntry (e : CacheEntry) :
    decodeEntry (encodeEntry e) = some e := by
  obtain ⟨arts, n⟩ := e
  rw [encodeEntry, decodeEntry, decodeArticles_encodeArticles]
  rfl

theorem decodePairs_map_encode (l : Content) :
    decodePairs (l.map fun kv => .arr [.str kv.1, encodeEntry kv.2]) = some l := by
  induction l with
  | nil => rfl
  | cons kv rest ih =>
    obtain ⟨k, e⟩ := kv
    show decodePairs (.arr [.str k, encodeEntry e] :: rest.map _) = _
    rw [decodePairs, decodeEntry_encodeEntry, ih]

theorem decodeContent_encodeContent (c : Content) :
    decodeContent (encodeContent c) = some c :=
  decodePairs_map_encode c

/-- Modelled from the spec: the filesystem at the boundary, a partial map
from paths to persisted file contents (spec §4.3, §6). -/
abbrev FileSystem := String → Option FileData

/-- Modelled from the spec: `Save` serializes the whole content mapping and
replaces whatever the path held (spec §4.3). -/
def Save (fs : FileSystem) (path : String) (c : Content) : FileSystem :=
  fun p => if p = path then some (encodeContent c) else fs p

/-- Modelled from the spec: `Load` yields an empty cache when no file exists
at the path, the deserialized mapping when the file parses, and an error when
the file exists but cannot be parsed (spec §4.3, §7). -/
def Load (fs : FileSystem) (path : String) : Except String Content :=
  match fs path with
  | none => .ok []
  | some d =>
    match decodeContent d with
    | some c => .ok c
    | none => .error "couldn't parse the cache file"

/-- C6: a `Save` followed by a fresh `Load` from the same path reproduces the
content mapping exactly: same keys, same article sequences, same expiry
timestamps. -/
theorem save_load_roundtrip (fs : FileSystem) (path : String) (c : Content) :
    Load (Save fs path c) path = .ok c := by
  rw [Load, Save]
  simp [decodeContent_encodeContent]

/-- C7: `Load` of a missing file is not an error and yields the empty cache;
`Load` errors exactly when the file exists but cannot be parsed; a parsable
file never errors. The three cases are exhaustive, so an error occurs if and
only if the file exists and cannot be parsed. -/
theorem load_missing_vs_malformed (fs : FileSystem) (path : String) :
    (fs path = none → Load fs path = .ok []) ∧
    (∀ d, fs path = some d → decodeContent d = none →
      Load fs path = .error "couldn't parse the cache file") ∧
    (∀ d c, fs path = some d → decodeContent d = some c →
      Load fs path = .ok c) := by
  refine ⟨?_, ?_, ?_⟩
  · intro hf
    rw [Load, hf]
  · intro d hf hd
    rw [Load, hf]
    simp [hd]
  · intro d c2 hf hd
    rw [Load, hf]
    simp [hd]

/-! ### Entry atomicity across operation sequences -/

/-- One `GetArticles` request: the feed, the filter flag, the request time
and the fetcher behaviour during that request. -/
structure Op where
  feed : Feed
  applyFilters : Bool
  now : Nat
  fetch : String → Except String (List Article)

/-- The content mapping after serving one request. -/
def stepOp (c : Content) (op : Op) : Content :=
  (GetArticles op.fetch op.now c op.feed op.applyFilters).content

/-- The content mapping after serving a sequence of requests. -/
def runOps (c : Content) (ops : List Op) : Content :=
  ops.foldl stepOp c

/-- An entry surviving one request either predates it or was installed whole
by that request's successful fetch. -/
theorem lookup_stepOp (c : Content) (op : Op) (k : String) (e : CacheEntry)
    (h : lookupContent (stepOp c op) k = some e) :
    lookupContent c k = some e ∨
      (op.feed.url = k ∧ op.fetch k = .ok e.articles ∧
        e.expire = op.now + DefaultCacheDuration) := by
  unfold stepOp at h
  cases hl : lookupContent c op.feed.url with
  | some e2 =>
    by_cases hv : op.now < e2.expire
    · left
      have h1 : (GetArticles op.fetch op.now c op.feed op.applyFilters).content = c := by
        simp [GetArticles, hl, hv]
      rw [h1] at h
      exact h
    · have hmiss : ∀ entry, lookupContent c op.feed.url = some entry →
          entry.expire ≤ op.now := by
        intro e3 he3
        rw [hl] at he3
        cases he3
        omega
      cases hf : op.fetch op.feed.url with
      | error cause =>
        left
        have h1 : (GetArticles op.fetch op.now c op.feed op.applyFilters).content = c := by
          simp [getArticles_stale op.fetch op.now c op.feed op.applyFilters hmiss, hf]
        rw [h1] at h
        exact h
      | ok arts =>
        have h1 : (GetArticles op.fetch op.now c op.feed op.applyFilters).content =
            insertContent c op.feed.url ⟨arts, op.now + DefaultCacheDuration⟩ := by
          simp [getArticles_stale op.fetch op.now c op.feed op.applyFilters hmiss, hf]
        rw [h1, lookupContent_insertContent] at h
        by_cases hk : op.feed.url = k
        · rw [if_pos hk] at h
          cases h
          exact Or.inr ⟨hk, hk ▸ hf, rfl⟩
        · rw [if_neg hk] at h
          exact Or.inl h
  | none =>
    have hmiss : ∀ entry, lookupContent c op.feed.url = some entry →
        entry.expire ≤ op.now := by
      intro e3 he3
      rw [hl] at he3
      cases he3
    cases hf : op.fetch op.feed.url with
    | error cause =>
      left
      have h1 : (GetArticles op.fetch op.now c op.feed op.applyFilters).content = c := by
        simp [getArticles_stale op.fetch op.now c op.feed op.applyFilters hmiss, hf]
      rw [h1] at h
      exact h
    | ok arts =>
      have h1 : (GetArticles op.fetch op.now c op.feed op.applyFilters).content =
          insertContent c op.feed.url ⟨arts, op.now + DefaultCacheDuration⟩ := by
        simp [getArticles_stale op.fetch op.now c op.feed op.applyFilters hmiss, hf]
      rw [h1, lookupContent_insertContent] at h
      by_cases hk : op.feed.url = k
      · rw [if_pos hk] at h
        cases h
        exact Or.inr ⟨hk, hk ▸ hf, rfl⟩
      · rw [if_neg hk] at h
        exact Or.inl h

/-- C8: after any sequence of requests, every stored entry either came whole
from the initial (loaded) mapping or was installed whole by one request: its
expiry is that request's time plus `DefaultCacheDuration` and its articles
are exactly that request's fetched articles. -/
theorem entry_replaced_atomically (c : Content) (ops : List Op) (k : String)
    (e : CacheEntry) (h : lookupContent (runOps c ops) k = some e) :
    lookupContent c k = some e ∨
      ∃ op ∈ ops, op.feed.url = k ∧ op.fetch k = .ok e.articles ∧
        e.expire = op.now + DefaultCacheDuration := by
  induction ops generalizing c with
  | nil => exact Or.inl h
  | cons op rest ih =>
    have h2 : lookupContent (runOps (stepOp c op) rest) k = some e := h
    rcases ih (stepOp c op) h2 with h3 | ⟨op2, hmem, hp⟩
    · rcases lookup_stepOp c op k e h3 with h4 | h4
      · exact Or.inl h4
      · exact Or.inr ⟨op, List.mem_cons_self op rest, h4⟩
    · exact Or.inr ⟨op2, List.mem_cons_of_mem op hmem, hp⟩
/-! ### UI model (internal/model/model.go) -/

/-- A tab of the UI, as far as the tab list is concerned. -/
structure Tab where
  title : String

/-- The tab types that `createNewTab` switches on. -/
inductive TabType where
  | Category
  | Feed

/-- The message kinds handled by `Update` in model.go. -/
inductive Msg where
  | windowSize (w h : Int)
  | fetchErrorMsg (description err : String)
  | newTabMsg (title : String) (ty : TabType)
  | keyMsg (k : String)
  | otherMsg

/-- The model state: the tab list, the active tab index (a machine integer in
the source), the status message and the quitting flag. -/
structure Model where
  tabs : List Tab
  activeTab : Int
  message : String
  quitting : Bool

/-- The initial model (`New` in model.go): a single welcome tab at index 0. -/
def NewModel (backendName : String) : Model :=
  { tabs := [⟨"Welcome"⟩], activeTab := 0,
    message := "Using backend - " ++ backendName, quitting := false }

/-- Tab creation (`createNewTab` in model.go): insert the new tab right after
the active one and advance the active index. -/
def createNewTab (m : Model) (title : String) (_ty : TabType) : Model :=
  let i := m.activeTab.toNat
  { m with
    tabs := m.tabs.take (i + 1) ++ ⟨title⟩ :: m.tabs.drop (i + 1),
    activeTab := m.activeTab + 1 }

/-- Updating the active tab's own model
(`m.tabs[m.activeTab], cmd = m.tabs[m.activeTab].Update(msg)`). -/
def updateActive (tabUpd : Tab → Msg → Tab) (m : Model) (msg : Msg) : Model :=
  { m with
    tabs := m.tabs.set m.activeTab.toNat
      (tabUpd (m.tabs.getD m.activeTab.toNat ⟨""⟩) msg) }

/-- The message dispatch of `Update` in model.go, before the trailing active
tab update; the boolean is true on the early-return quit paths. -/
def updateCore (tabUpd : Tab → Msg → Tab) (m : Model) (msg : Msg) : Model × Bool :=
  match msg with
  | .windowSize _ _ => (m, false)
  | .fetchErrorMsg d e => ({ m with message := d ++ " - " ++ e }, false)
  | .newTabMsg title ty =>
    let m2 := createNewTab m title ty
    let m3 := updateActive tabUpd m2 msg
    ({ m3 with message := "" }, false)
  | .keyMsg k =>
    if k = "ctrl+c" ∨ k = "esc" ∨ k = "q" then
      ({ m with quitting := true }, true)
    else if k = "tab" then
      let i := m.activeTab + 1
      let i2 := if i > (m.tabs.length : Int) - 1 then 0 else i
      ({ m with activeTab := i2, message := "" }, false)
    else if k = "shift+tab" then
      let i := m.activeTab - 1
      let i2 := if i < 0 then (m.tabs.length : Int) - 1 else i
      ({ m with activeTab := i2, message := "" }, false)
    else if k = "ctrl+w" then
      if m.tabs.length = 1 then ({ m with quitting := true }, true)
      else
        let j := m.activeTab.toNat
        let tabs2 := m.tabs.take j ++ m.tabs.drop (j + 1)
        let i := m.activeTab - 1
        let i2 := if i < 0 then (tabs2.length : Int) - 1 else i
        ({ m with
            tabs := tabs2, activeTab := i2,
            message := "Closed tab - " ++ (m.tabs.getD j ⟨""⟩).title }, false)
    else (m, false)
  | .otherMsg => (m, false)

/-- The full `Update` of model.go: dispatch the message, then update the
active tab unless an early return quit the program. -/
def Update (tabUpd : Tab → Msg → Tab) (m : Model) (msg : Msg) : Model × Bool :=
  let r := updateCore tabUpd m msg
  if r.2 then (r.1, true) else (updateActive tabUpd r.1 msg, false)

/-- The indexing invariant: the tab list is non-empty and `activeTab` is a
valid index into it. -/
def TabsInv (m : Model) : Prop :=
  m.tabs ≠ [] ∧ 0 ≤ m.activeTab ∧ m.activeTab < (m.tabs.length : Int)

theorem tabsInv_iff (m : Model) :
    TabsInv m ↔ 0 ≤ m.activeTab ∧ m.activeTab < (m.tabs.length : Int) := by
  constructor
  · rintro ⟨_, h0, hlt⟩
    exact ⟨h0, hlt⟩
  · rintro ⟨h0, hlt⟩
    have hlen : 0 < m.tabs.length := by omega
    exact ⟨List.ne_nil_of_length_pos hlen, h0, hlt⟩

theorem tabsInv_updateActive (tabUpd : Tab → Msg → Tab) (m : Model) (msg : Msg)
    (h : TabsInv m) : TabsInv (updateActive tabUpd m msg) := by
  rw [tabsInv_iff] at h ⊢
  simpa [updateActive] using h

theorem updateCore_inv (tabUpd : Tab → Msg → Tab) (m : Model) (msg : Msg)
    (h : TabsInv m) :
    (updateCore tabUpd m msg).2 = true ∨ TabsInv (updateCore tabUpd m msg).1 := by
  rw [tabsInv_iff] at h
  obtain ⟨h0, hlt⟩ := h
  cases msg with
  | windowSize w hh => exact Or.inr ((tabsInv_iff m).mpr ⟨h0, hlt⟩)
  | otherMsg => exact Or.inr ((tabsInv_iff m).mpr ⟨h0, hlt⟩)
  | fetchErrorMsg d e =>
    right
    rw [tabsInv_iff]
    exact ⟨h0, hlt⟩
  | newTabMsg title ty =>
    right
    rw [tabsInv_iff]
    simp only [updateCore, updateActive, createNewTab, List.length_set,
      List.length_append, List.length_take, List.length_drop, List.length_cons]
    constructor
    · omega
    · push_cast
      omega
  | keyMsg k =>
    by_cases hq : k = "ctrl+c" ∨ k = "esc" ∨ k = "q"
    · left
      simp [updateCore, hq]
    · by_cases ht : k = "tab"
      · right
        rw [tabsInv_iff]
        simp only [updateCore, if_neg hq, if_pos ht]
        constructor
        · split <;> omega
        · split <;> omega
      · by_cases hs : k = "shift+tab"
        · right
          rw [tabsInv_iff]
          simp only [updateCore, if_neg hq, if_neg ht, if_pos hs]
          constructor
          · split <;> omega
          · split <;> omega
        · by_cases hw : k = "ctrl+w"
          · by_cases h1 : m.tabs.length = 1
            · left
              simp [updateCore, hq, ht, hs, hw, h1]
            · right
              rw [tabsInv_iff]
              simp only [updateCore, if_neg hq, if_neg ht, if_neg hs, if_pos hw,
                if_neg h1, List.length_append, List.length_take, List.length_drop]
              constructor
              · split <;> (push_cast; omega)
              · split <;> (push_cast; omega)
          · right
            rw [tabsInv_iff]
            simp only [updateCore, if_neg hq, if_neg ht, if_neg hs, if_neg hw]
            exact ⟨h0, hlt⟩

/-- C9: the initial model satisfies the indexing invariant, every `Update`
step either quits or preserves it (so indexing `tabs[activeTab]` at the end
of `Update` is in bounds), `tab` and `shift+tab` wrap around at the ends of
the tab list, and `ctrl+w` on the last remaining tab quits instead of
removing it. -/
theorem model_update_tab_invariant (tabUpd : Tab → Msg → Tab) (m : Model)
    (msg : Msg) (h : TabsInv m) :
    (∀ name, TabsInv (NewModel name)) ∧
    ((Update tabUpd m msg).2 = true ∨ TabsInv (Update tabUpd m msg).1) ∧
    (m.activeTab = (m.tabs.length : Int) - 1 →
      (Update tabUpd m (.keyMsg "tab")).1.activeTab = 0) ∧
    (m.activeTab = 0 →
      (Update tabUpd m (.keyMsg "shift+tab")).1.activeTab =
        (m.tabs.length : Int) - 1) ∧
    (m.tabs.length = 1 →
      (Update tabUpd m (.keyMsg "ctrl+w")).2 = true ∧
      (Update tabUpd m (.keyMsg "ctrl+w")).1.quitting = true) := by
  refine ⟨?_, ?_, ?_, ?_, ?_⟩
  · intro name
    rw [tabsInv_iff]
    constructor <;> simp [NewModel]
  · rcases updateCore_inv tabUpd m msg h with hc | hc
    · left
      simp [Update, hc]
    · cases hr : (updateCore tabUpd m msg).2 with
      | true => left; simp [Update, hr]
      | false =>
        right
        simp only [Update, hr, if_neg Bool.false_ne_true]
        exact tabsInv_updateActive tabUpd _ msg hc
  · intro hend
    have harith : m.activeTab + 1 > (m.tabs.length : Int) - 1 := by omega
    simp [Update, updateCore, updateActive, harith]
  · intro hzero
    rw [tabsInv_iff] at h
    have harith : m.activeTab - 1 < 0 := by omega
    simp [Update, updateCore, updateActive, harith]
  · intro h1
    simp [Update, updateCore, h1]
/-! ### Web backend (internal/backend/web/backend.go) -/

/-- A rendered list item (`simplelist.NewItem(name, desc, markdown)`). -/
structure Item where
  name : String
  desc : String
  markdownBody : String
deriving DecidableEq, Repr

/-- A raw parsed feed item as delivered by the feed parser. -/
structure GofeedItem where
  title : String
  description : String
  content : String
deriving DecidableEq, Repr

/-- The two message kinds a fetch command can produce
(`backend.FetchErrorMessage` and `backend.FetchSuccessMessage`). -/
inductive FetchMsg where
  | fetchErrorMessage (description err : String)
  | fetchSuccessMessage (items : List Item)
deriving DecidableEq, Repr

/-- `FetchFeeds` from backend.go: look the category up, reporting a failure
as an error message, and on success produce one list item per feed name, in
order. -/
def FetchFeeds (getFeeds : String → Except String (List String))
    (catName : String) : FetchMsg :=
  match getFeeds catName with
  | .error e => .fetchErrorMessage "Failed to get feeds" e
  | .ok feeds => .fetchSuccessMessage (feeds.map fun f => ⟨f, "", ""⟩)

/-- `FetchArticles` from backend.go: resolve the feed URL, parse the feed,
reporting either failure as an error message, and on success produce one list
item per parsed feed item, in order. -/
def FetchArticles (getFeedURL : String → Except String String)
    (parseURL : String → Except String (List GofeedItem))
    (htmlToText : String → String) (markdownize : GofeedItem → String)
    (feedName : String) : FetchMsg :=
  match getFeedURL feedName with
  | .error e => .fetchErrorMessage "Failed to get articles" e
  | .ok url =>
    match parseURL url with
    | .error e => .fetchErrorMessage "Failed to parse the articles" e
    | .ok items =>
      .fetchSuccessMessage (items.map fun it =>
        ⟨it.title, htmlToText it.description, markdownize it⟩)

/-- C10: the fetch commands always return a message value: each failure path
yields a `FetchErrorMessage` with its fixed description and the underlying
error, and each success path yields a `FetchSuccessMessage` with one item per
fetched element, in source order. -/
theorem fetch_commands_never_panic
    (getFeeds : String → Except String (List String))
    (getFeedURL : String → Except String String)
    (parseURL : String → Except String (List GofeedItem))
    (htmlToText : String → String) (markdownize : GofeedItem → String)
    (catName feedName : String) :
    (∀ e, getFeeds catName = .error e →
      FetchFeeds getFeeds catName = .fetchErrorMessage "Failed to get feeds" e) ∧
    (∀ feeds, getFeeds catName = .ok feeds →
      FetchFeeds getFeeds catName =
        .fetchSuccessMessage (feeds.map fun f => ⟨f, "", ""⟩)) ∧
    (∀ e, getFeedURL feedName = .error e →
      FetchArticles getFeedURL parseURL htmlToText markdownize feedName =
        .fetchErrorMessage "Failed to get articles" e) ∧
    (∀ url e, getFeedURL feedName = .ok url → parseURL url = .error e →
      FetchArticles getFeedURL parseURL htmlToText markdownize feedName =
        .fetchErrorMessage "Failed to parse the articles" e) ∧
    (∀ url items, getFeedURL feedName = .ok url → parseURL url = .ok items →
      FetchArticles getFeedURL parseURL htmlToText markdownize feedName =
        .fetchSuccessMessage (items.map fun it =>
          ⟨it.title, htmlToText it.description, markdownize it⟩)) := by
  refine ⟨?_, ?_, ?_, ?_, ?_⟩
  · intro e he
    simp [FetchFeeds, he]
  · intro feeds hf
    simp [FetchFeeds, hf]
  · intro e he
    simp [FetchArticles, he]
  · intro url e hu he
    simp [FetchArticles, hu, he]
  · intro url items hu hi
    simp [FetchArticles, hu, hi]

/-! ### Concrete witnesses -/

/-- A concrete article whose text contains the word Samuel. -/
def artSam : Article := ⟨"A word from Samuel", "weekly notes", "hello"⟩

/-- A concrete article whose text does not contain the word Samuel. -/
def artTom : Article := ⟨"A word from Tom", "weekly notes", "hello"⟩

theorem getArticles_valid_hit_witness :
    GetArticles (fun _ => .error "offline") 5 [("u", ⟨[artSam], 10⟩)]
      ⟨"u", [], []⟩ false = ⟨.ok [artSam], [("u", ⟨[artSam], 10⟩)], 0⟩ :=
  getArticles_valid_hit (fun _ => .error "offline") 5 [("u", ⟨[artSam], 10⟩)]
    ⟨"u", [], []⟩ ⟨[artSam], 10⟩ rfl (by decide)

theorem getArticles_refresh_installs_witness :
    (GetArticles (fun _ => .ok [artSam]) 100 [] ⟨"u", [], []⟩ false).fetchCount = 1 ∧
    lookupContent
      (GetArticles (fun _ => .ok [artSam]) 100 [] ⟨"u", [], []⟩ false).content "u" =
      some ⟨[artSam], 100 + DefaultCacheDuration⟩ :=
  ⟨(getArticles_refresh_installs (fun _ => .ok [artSam]) 100 [] ⟨"u", [], []⟩
      false [artSam] (by intro e he; simp [lookupContent] at he) rfl).1,
   (getArticles_refresh_installs (fun _ => .ok [artSam]) 100 [] ⟨"u", [], []⟩
      false [artSam] (by intro e he; simp [lookupContent] at he) rfl).2.2.1⟩

theorem getArticles_fetch_failure_witness :
    GetArticles (fun _ => .error "offline") 100 [("u", ⟨[artSam], 50⟩)]
      ⟨"u", [], []⟩ true =
      ⟨.error ⟨"Failed to fetch the article", "offline"⟩,
        [("u", ⟨[artSam], 50⟩)], 1⟩ :=
  getArticles_fetch_failure (fun _ => .error "offline") 100
    [("u", ⟨[artSam], 50⟩)] ⟨"u", [], []⟩ true "offline"
    (by intro e he; simp [lookupContent] at he; subst he; decide) rfl

theorem filter_keeps_exactly_witness :
    (Filter [artSam, artTom] ["samuel"] []).Sublist [artSam, artTom] ∧
    artSam ∈ Filter [artSam, artTom] ["samuel"] [] :=
  ⟨(filter_keeps_exactly [artSam, artTom] ["samuel"] []).1,
   ((filter_keeps_exactly [artSam, artTom] ["samuel"] []).2 artSam).mpr
     ⟨by decide, fun _ => ⟨"samuel", by decide, by decide⟩, by decide⟩⟩

theorem getArticles_filter_no_mutation_witness :
    (GetArticles (fun _ => .ok [artSam]) 7 [] ⟨"u", ["samuel"], []⟩ true).content =
      (GetArticles (fun _ => .ok [artSam]) 7 [] ⟨"u", ["samuel"], []⟩ false).content ∧
    iterGet (fun _ => .ok [artSam]) 7 ⟨"u", ["samuel"], []⟩ 3 [] =
      iterGet (fun _ => .ok [artSam]) 7 ⟨"u", ["samuel"], []⟩ 1 [] :=
  ⟨(getArticles_filter_no_mutation (fun _ => .ok [artSam]) 7
      ⟨"u", ["samuel"], []⟩ [] 2).1,
   (getArticles_filter_no_mutation (fun _ => .ok [artSam]) 7
      ⟨"u", ["samuel"], []⟩ [] 2).2.1⟩

theorem load_missing_vs_malformed_witness :
    Load (fun _ => none) "p" = .ok [] ∧
    Load (fun _ => some (.num 0)) "p" = .error "couldn't parse the cache file" :=
  ⟨(load_missing_vs_malformed (fun _ => none) "p").1 rfl,
   (load_missing_vs_malformed (fun _ => some (.num 0)) "p").2.1 (.num 0) rfl rfl⟩

/-- A concrete refresh request used by the atomicity witness. -/
def opRefresh : Op := ⟨⟨"u", [], []⟩, false, 100, fun _ => .ok [artSam]⟩

theorem entry_replaced_atomically_witness :
    lookupContent ([] : Content) "u" =
      some ⟨[artSam], 100 + DefaultCacheDuration⟩ ∨
    ∃ op ∈ [opRefresh], op.feed.url = "u" ∧
      op.fetch "u" = .ok [artSam] ∧
      (100 + DefaultCacheDuration : Nat) = op.now + DefaultCacheDuration :=
  entry_replaced_atomically [] [opRefresh] "u"
    ⟨[artSam], 100 + DefaultCacheDuration⟩ rfl

theorem model_update_tab_invariant_witness :
    TabsInv (NewModel "WebBackend") ∧
    ((Update (fun t _ => t) (NewModel "WebBackend") .otherMsg).2 = true ∨
      TabsInv (Update (fun t _ => t) (NewModel "WebBackend") .otherMsg).1) ∧
    (Update (fun t _ => t) (NewModel "WebBackend") (.keyMsg "ctrl+w")).2 = true :=
  ⟨(model_update_tab_invariant (fun t _ => t) (NewModel "WebBackend") .otherMsg
      (by simp [TabsInv, NewModel])).1 "WebBackend",
   (model_update_tab_invariant (fun t _ => t) (NewModel "WebBackend") .otherMsg
      (by simp [TabsInv, NewModel])).2.1,
   ((model_update_tab_invariant (fun t _ => t) (NewModel "WebBackend") .otherMsg
      (by simp [TabsInv, NewModel])).2.2.2.2 (by simp [NewModel])).1⟩

theorem fetch_commands_never_panic_witness :
    FetchFeeds (fun _ => .ok ["news"]) "cat" =
      .fetchSuccessMessage [⟨"news", "", ""⟩] ∧
    FetchArticles (fun _ => .error "no such feed") (fun _ => .ok [])
      id (fun _ => "") "f" =
      .fetchErrorMessage "Failed to get articles" "no such feed" :=
  ⟨(fetch_commands_never_panic (fun _ => .ok ["news"])
      (fun _ => .error "no such feed") (fun _ => .ok []) id (fun _ => "")
      "cat" "f").2.1 ["news"] rfl,
   (fetch_commands_never_panic (fun _ => .ok ["news"])
      (fun _ => .error "no such feed") (fun _ => .ok []) id (fun _ => "")
      "cat" "f").2.2.1 "no such feed" rfl⟩
end Goread
